import Mathlib

/-!
Shallow embedding of the `screen` Go package (src/screen.go): a library that
manages named GNU screen sessions by shelling out to the external `screen`
executable and parsing its textual listing output.

The external world (listing output, control-command exit status and output,
filesystem stat results) is modelled by an explicit `Env` record; every
operation returns its result together with the updated lock registry and the
ordered list of external invocations it issued, so that claims about "which
external commands run" are claims about that trace.
-/

namespace GoScreen

/-- Whitespace characters as matched by Go's regexp class `\s` = `[\t\n\f\r ]`. -/
def isWsChar (c : Char) : Bool :=
  c == ' ' || c == '\t' || c == '\n' || c == '\r' || c == '\x0c'

/-- Split a char list into its maximal leading run of ASCII digits and the rest,
the behaviour of the greedy `(\d+)` group followed by a non-digit literal. -/
def takeDigits : List Char → List Char × List Char
  | [] => ([], [])
  | c :: rest =>
    if c.isDigit then
      let p := takeDigits rest
      (c :: p.1, p.2)
    else ([], c :: rest)

/-- Match the part of the pattern `\s(\d+)\.(name)\s` that follows the leading
whitespace: a nonempty digit run, a literal dot, the literal session name and a
trailing whitespace character.  Returns the pid capture and the remainder of
the input after the match (the Go matcher resumes scanning there).  This embeds
`regexp.Compile(fmt.Sprintf("\\s(\\d+)\\.(%s)\\s", name))` from `Get` in
src/screen.go for names that contain no regexp metacharacters, so the name is
matched literally. -/
def matchTail (nm : List Char) (rest : List Char) : Option (List Char × List Char) :=
  match takeDigits rest with
  | ([], _) => none
  | (d :: ds, r1) =>
    match r1 with
    | [] => none
    | c1 :: r2 =>
      if c1 = '.' then
        if nm.isPrefixOf r2 then
          match r2.drop nm.length with
          | [] => none
          | w2 :: r4 => if isWsChar w2 then some (d :: ds, r4) else none
        else none
      else none

/-- Try the pattern `\s(\d+)\.(nm)\s` anchored at the head of `s`. -/
def matchHere (nm : List Char) : List Char → Option (List Char × List Char)
  | [] => none
  | w :: rest => if isWsChar w then matchTail nm rest else none

/-- Leftmost, non-overlapping scan of the whole input, as performed by
`FindAllStringSubmatch(out, -1)`; returns the pid captures of every match.
The fuel argument is always at least the input length, and every successful
match consumes at least one character, so the fuel never runs out. -/
def scanAux (nm : List Char) : Nat → List Char → List (List Char)
  | 0, _ => []
  | _ + 1, [] => []
  | f + 1, c :: rest =>
    match matchHere nm (c :: rest) with
    | some (ds, after) => ds :: scanAux nm f after
    | none => scanAux nm f rest

/-- All pid captures of the pattern `\s(\d+)\.(nm)\s` over `s`. -/
def scanMatches (nm : List Char) (s : List Char) : List (List Char) :=
  scanAux nm s.length s

/-- Numeric value of an ASCII digit character. -/
def digitVal (c : Char) : Nat := c.toNat - 48

/-- Parse a digit string into a number, the successful case of `strconv.Atoi`
(the pid capture of the listing regex is always a nonempty digit run). -/
def parseNat (cs : List Char) : Option Nat :=
  if cs.isEmpty then none
  else if cs.all Char.isDigit then
    some (cs.foldl (fun a c => a * 10 + digitVal c) 0)
  else none

/-- The decimal digit character for a value below ten. -/
def digitChar : Nat → Char
  | 0 => '0' | 1 => '1' | 2 => '2' | 3 => '3' | 4 => '4'
  | 5 => '5' | 6 => '6' | 7 => '7' | 8 => '8' | _ => '9'

/-- Fuelled accumulator loop rendering a number in decimal. -/
def natCharsAux : Nat → Nat → List Char → List Char
  | 0, _, acc => acc
  | f + 1, n, acc =>
    if n < 10 then digitChar n :: acc
    else natCharsAux f (n / 10) (digitChar (n % 10) :: acc)

/-- Decimal rendering of a natural number (used to model pid fields in listing
output and `strconv.Itoa` for the flush interval). -/
def natChars (n : Nat) : List Char := natCharsAux (n + 1) n []

/-- Decimal rendering as a string. -/
def natToStr (n : Nat) : String := ⟨natChars n⟩

/-- The process-wide `mutexes sync.Map`: an association of session names to
lock identities, together with a counter supplying fresh lock identities
(distinct `new(sync.Mutex)` allocations are distinct locks). -/
structure Registry where
  entries : List (String × Nat)
  next : Nat
deriving DecidableEq, Repr

/-- Look a name up in the registry entries. -/
def findLock : List (String × Nat) → String → Option Nat
  | [], _ => none
  | (m, l) :: rest, n => if m = n then some l else findLock rest n

/-- `mutexes.LoadOrStore(name, new(sync.Mutex))`: return the existing lock for
`name`, or atomically install and return a fresh one. -/
def loadOrStore (reg : Registry) (n : String) : Nat × Registry :=
  match findLock reg.entries n with
  | some l => (l, reg)
  | none => (reg.next, ⟨(n, reg.next) :: reg.entries, reg.next + 1⟩)

/-- The `Screen` struct: session name, shared lock identity, and the optional
pid of the owning process (`Process` is nil when the pid parse fails). -/
structure Session where
  name : String
  lock : Nat
  pid : Option Nat
deriving DecidableEq, Repr

/-- The error values the package produces, mirroring the Go error taxonomy:
`os.ErrNotExist`, the `os.SyscallError` wrappers built with `os.ErrInvalid`,
`os.ErrExist` and `os.ErrNotExist` messages, `errors.New(<tool output>)`,
propagated `os.Stat` errors, and `ctx.Err()`. -/
inductive GoErr where
  | errNotExist
  | syscallInvalid (msg : String)
  | syscallExist (msg : String)
  | syscallNotExist (msg : String)
  | cmdOutput (msg : String)
  | statNotExist
  | statOther (msg : String)
  | ctxCanceled
deriving DecidableEq, Repr

/-- `os.IsNotExist` on an optional error: true only for the bare
`os.ErrNotExist` sentinel and for a real ENOENT stat error; false on `nil` and
on the package's `os.SyscallError` wrappers (whose wrapped error is a plain
`errors.New`, not ENOENT). -/
def isNotExist : Option GoErr → Bool
  | some .errNotExist => true
  | some .statNotExist => true
  | _ => false

/-- `os.IsNotExist` applied to the error component of a `(Screen, error)` pair. -/
def isNotExistE : Except GoErr Session → Bool
  | .error e => isNotExist (some e)
  | .ok _ => false

/-- `err == nil` for a `(Screen, error)` pair. -/
def exOk : Except GoErr Session → Bool
  | .ok _ => true
  | .error _ => false

/-- One external invocation: the scoped listing (`screen -ls name`), the
unscoped listing (`screen -ls`), session creation (`screen -dmS name shell`)
and a control command (`screen -S name -X args...`). -/
inductive Inv where
  | listCmd (name : String)
  | listAllCmd
  | createCmd (name shell : String)
  | ctlCmd (name : String) (args : List String)
deriving DecidableEq, Repr

/-- Result of running one external command: exit status, combined
stdout+stderr (`CombinedOutput`), stdout alone (`Output`), and the text of the
Go error value for a non-zero exit. -/
structure CmdOut where
  exitOk : Bool
  combined : String
  stdout : String
  errMsg : String
deriving DecidableEq, Repr

/-- Result of `os.Stat` on a path. -/
inductive StatRes where
  | ok
  | enoent
  | other (msg : String)
deriving DecidableEq, Repr

/-- The external world: listing outputs, control/create command results and
filesystem stat results.  It is fixed for the duration of one modelled call. -/
structure Env where
  lsOut : String → String
  lsAllOut : String
  ctl : String → List String → CmdOut
  createRes : String → String → CmdOut
  stat : String → StatRes

/-- Does `sub` occur as a contiguous run in `s`? -/
def containsAux (sub : List Char) : List Char → Bool
  | [] => sub.isEmpty
  | c :: rest => sub.isPrefixOf (c :: rest) || containsAux sub rest

/-- `strings.Contains s sub`. -/
def containsSubstr (s sub : String) : Bool := containsAux sub.data s.data

/-- The "no sessions" sentinel phrase of the listing output. -/
def sentinelStr : String := "No Sockets found in"

/-- `Get` from src/screen.go: empty-name validation, scoped listing, sentinel
check, regex scan for `\s(\d+)\.(name)\s` tokens, pid parse, and lock
resolution through the registry.  Returns the result, the updated registry and
the external invocations issued. -/
def Get (env : Env) (reg : Registry) (name : String) :
    Except GoErr Session × Registry × List Inv :=
  if name = "" then
    (.error (.syscallInvalid "screen name cannot be empty"), reg, [])
  else if containsSubstr (env.lsOut name) sentinelStr then
    (.error .errNotExist, reg, [Inv.listCmd name])
  else
    match scanMatches name.data (env.lsOut name).data with
    | [] => (.error .errNotExist, reg, [Inv.listCmd name])
    | ds :: _ =>
      (.ok { name := name, lock := (loadOrStore reg name).1, pid := parseNat ds },
        (loadOrStore reg name).2, [Inv.listCmd name])

/-- Accumulator for `strings.Fields`: maximal runs of non-whitespace. -/
def fieldsAux : List Char → List Char → List (List Char)
  | [], cur => if cur.isEmpty then [] else [cur.reverse]
  | c :: rest, cur =>
    if isWsChar c then
      if cur.isEmpty then fieldsAux rest [] else cur.reverse :: fieldsAux rest []
    else fieldsAux rest (c :: cur)

/-- `strings.Fields`. -/
def goFields (s : List Char) : List (List Char) := fieldsAux s []

/-- Accumulator for splitting on a separator character. -/
def splitCharAux (sep : Char) : List Char → List Char → List (List Char)
  | [], cur => [cur.reverse]
  | c :: rest, cur =>
    if c == sep then cur.reverse :: splitCharAux sep rest []
    else splitCharAux sep rest (c :: cur)

/-- `strings.Split(s, ".")`. -/
def splitDot (s : List Char) : List (List Char) := splitCharAux '.' s []

/-- `strings.Split(s, "\n")`. -/
def splitNl (s : List Char) : List (List Char) := splitCharAux '\n' s []

/-- Parse one `GetAll` listing line: `strings.Fields(line)[0]` split on `.`,
taking elements 0 (pid) and 1 (name).  `none` models the Go index-out-of-range
panics on a blank line or a first field with no dot. -/
def parseAllLine (line : List Char) : Option (List Char × List Char) :=
  match goFields line with
  | [] => none
  | f :: _ =>
    match splitDot f with
    | [] => none
    | [_] => none
    | p :: nm :: _ => some (p, nm)

/-- The per-line loop of `GetAll`: build a `Session` per line and resolve its
lock through the registry.  `none` in the first component models a panic; the
registry updates made before the panic are kept (the `sync.Map` is global). -/
def getAllLoop : List (List Char) → Registry → Option (List Session) × Registry
  | [], reg => (some [], reg)
  | line :: rest, reg =>
    match parseAllLine line with
    | none => (none, reg)
    | some (p, nm) =>
      let nmS : String := ⟨nm⟩
      let lr := loadOrStore reg nmS
      let s : Session := { name := nmS, lock := lr.1, pid := parseNat p }
      let r := getAllLoop rest lr.2
      (r.1.map fun ss => s :: ss, r.2)

/-- `GetAll` from src/screen.go: unscoped listing, sentinel check, then one
session per line skipping the first and last lines of the split output. -/
def GetAll (env : Env) (reg : Registry) :
    Option (List Session) × Registry × List Inv :=
  if containsSubstr env.lsAllOut sentinelStr then (some [], reg, [Inv.listAllCmd])
  else
    ((getAllLoop (((splitNl env.lsAllOut.data).drop 1).dropLast) reg).1,
      (getAllLoop (((splitNl env.lsAllOut.data).drop 1).dropLast) reg).2,
      [Inv.listAllCmd])

/-- `isOnline`: re-discover the session by name and report whether the lookup
succeeded. -/
def isOnline (env : Env) (reg : Registry) (s : Session) : Bool × Registry × List Inv :=
  let r := Get env reg s.name
  (exOk r.1, r.2.1, r.2.2)

/-- `builtinTemplate`: under the session lock, re-verify liveness, then issue
one zero-argument control command; a non-zero exit yields the combined output
as the error message. -/
def builtinTemplate (env : Env) (reg : Registry) (s : Session) (command : String) :
    Option GoErr × Registry × List Inv :=
  let o := isOnline env reg s
  if o.1 = false then
    (some (.syscallNotExist "screen not found"), o.2.1, o.2.2)
  else
    let res := env.ctl s.name [command]
    let invs := o.2.2 ++ [Inv.ctlCmd s.name [command]]
    if res.exitOk then (none, o.2.1, invs)
    else (some (.cmdOutput res.combined), o.2.1, invs)

/-- `builtinTemplateArgs`: like `builtinTemplate` but passing the
space-joined arguments, capturing stdout only (`Output()`), and building the
failure message as stdout followed by the Go error text. -/
def builtinTemplateArgs (env : Env) (reg : Registry) (s : Session)
    (command : String) (args : List String) : Option GoErr × Registry × List Inv :=
  let o := isOnline env reg s
  if o.1 = false then
    (some (.syscallNotExist "screen not found"), o.2.1, o.2.2)
  else
    let res := env.ctl s.name [command, String.intercalate " " args]
    let invs := o.2.2 ++ [Inv.ctlCmd s.name [command, String.intercalate " " args]]
    if res.exitOk then (none, o.2.1, invs)
    else (some (.cmdOutput (res.stdout ++ res.errMsg)), o.2.1, invs)

/-- `Quit`. -/
def Quit (env : Env) (reg : Registry) (s : Session) : Option GoErr × Registry × List Inv :=
  builtinTemplate env reg s "quit"

/-- `Kill`. -/
def Kill (env : Env) (reg : Registry) (s : Session) : Option GoErr × Registry × List Inv :=
  builtinTemplate env reg s "kill"

/-- `Stuff`. -/
def Stuff (env : Env) (reg : Registry) (s : Session) (commands : List String) :
    Option GoErr × Registry × List Inv :=
  builtinTemplateArgs env reg s "stuff" commands

/-- `Clear`. -/
def Clear (env : Env) (reg : Registry) (s : Session) : Option GoErr × Registry × List Inv :=
  builtinTemplate env reg s "clear"

/-- `Chdir` from src/screen.go: under the lock, stat the path (propagating a
stat failure), then issue the `chdir` control command.  Note that unlike the
other mutating operations it performs no `isOnline` liveness check. -/
def Chdir (env : Env) (reg : Registry) (s : Session) (path : String) :
    Option GoErr × Registry × List Inv :=
  match env.stat path with
  | .enoent => (some .statNotExist, reg, [])
  | .other m => (some (.statOther m), reg, [])
  | .ok =>
    let res := env.ctl s.name ["chdir", path]
    if res.exitOk then (none, reg, [Inv.ctlCmd s.name ["chdir", path]])
    else (some (.cmdOutput res.combined), reg, [Inv.ctlCmd s.name ["chdir", path]])

/-- Match `[.!:]{0,3}\|?$` against a tail with the given character budget. -/
def fdpatTailOk : List Char → Nat → Bool
  | [], _ => true
  | ['|'], _ => true
  | c :: rest, k + 1 => (c == '.' || c == '!' || c == ':') && fdpatTailOk rest k
  | _ :: _, 0 => false

/-- `regexp.MatchString("/[.!:]{0,3}\\|?$", s)`: some suffix starts with `/`
followed by at most three of `.`, `!`, `:`, an optional `|`, and end of input. -/
def fdpatMatch : List Char → Bool
  | [] => false
  | '/' :: rest => fdpatTailOk rest 3 || fdpatMatch rest
  | _ :: rest => fdpatMatch rest

/-- `Exec` from src/screen.go: under the lock, re-verify liveness first, then
validate the fdpat (empty means default), then issue the `exec` control
command. -/
def Exec (env : Env) (reg : Registry) (s : Session) (fdpat command : String)
    (args : List String) : Option GoErr × Registry × List Inv :=
  let o := isOnline env reg s
  if o.1 = false then
    (some (.syscallNotExist "screen not found"), o.2.1, o.2.2)
  else if fdpat ≠ "" ∧ fdpatMatch fdpat.data = false then
    (some (.syscallInvalid "invalid fdpat"), o.2.1, o.2.2)
  else
    let cargs := ["exec", fdpat, command] ++ args
    let res := env.ctl s.name cargs
    let invs := o.2.2 ++ [Inv.ctlCmd s.name cargs]
    if res.exitOk then (none, o.2.1, invs)
    else (some (.cmdOutput res.combined), o.2.1, invs)

/-- `Hardcopy`: liveness check, then the `hardcopy_append` toggle followed by
the `hardcopy` command, both under the one lock hold. -/
def Hardcopy (env : Env) (reg : Registry) (s : Session) (path : String) (app : Bool) :
    Option GoErr × Registry × List Inv :=
  let o := isOnline env reg s
  if o.1 = false then
    (some (.syscallNotExist "screen not found"), o.2.1, o.2.2)
  else
    let appStr := if app then "on" else "off"
    let r1 := env.ctl s.name ["hardcopy_append", appStr]
    let i1 := o.2.2 ++ [Inv.ctlCmd s.name ["hardcopy_append", appStr]]
    if r1.exitOk = false then (some (.cmdOutput r1.combined), o.2.1, i1)
    else
      let r2 := env.ctl s.name ["hardcopy", path]
      let i2 := i1 ++ [Inv.ctlCmd s.name ["hardcopy", path]]
      if r2.exitOk = false then (some (.cmdOutput r2.combined), o.2.1, i2)
      else (none, o.2.1, i2)

/-- `Log` from src/screen.go: liveness check; then the stat guard
(`if err != nil && append { os.Truncate } else if err != nil && !os.IsNotExist(err)
{ return err }` — so with `append` every stat error falls into the truncate
branch and is swallowed, and a non-ENOENT stat error is returned only when
`append` is false); then the `logfile`, `logfile flush` and `log on|off`
control commands in order. -/
def Log (env : Env) (reg : Registry) (s : Session) (path : String) (app : Bool)
    (flushInterval : Nat) : Option GoErr × Registry × List Inv :=
  let o := isOnline env reg s
  if o.1 = false then
    (some (.syscallNotExist "screen not found"), o.2.1, o.2.2)
  else
    match env.stat path, app with
    | .other m, false => (some (.statOther m), o.2.1, o.2.2)
    | _, _ =>
      let r1 := env.ctl s.name ["logfile", path]
      let i1 := o.2.2 ++ [Inv.ctlCmd s.name ["logfile", path]]
      if r1.exitOk = false then (some (.cmdOutput r1.combined), o.2.1, i1)
      else
        let r2 := env.ctl s.name ["logfile", "flush", natToStr flushInterval]
        let i2 := i1 ++ [Inv.ctlCmd s.name ["logfile", "flush", natToStr flushInterval]]
        if r2.exitOk = false then (some (.cmdOutput r2.combined), o.2.1, i2)
        else
          let toggle := if path = "" then "off" else "on"
          let r3 := env.ctl s.name ["log", toggle]
          let i3 := i2 ++ [Inv.ctlCmd s.name ["log", toggle]]
          if r3.exitOk = false then (some (.cmdOutput r3.combined), o.2.1, i3)
          else (none, o.2.1, i3)

deriving instance DecidableEq for Except

/-- Result of the fuelled creation poll loop: cancelled by the context,
finished with `Get`'s result, or out of fuel (the Go loop is unbounded). -/
inductive PollRes where
  | canceled
  | done (r : Except GoErr Session)
  | fuelOut
deriving DecidableEq, Repr

/-- The "wait for screen to come up" loop of `New`: each iteration first
checks the context, then sleeps and calls `Get`, leaving the loop as soon as
the result is not `os.ErrNotExist`.  `i` counts iterations so the context is
modelled as a function of the iteration number. -/
def newPoll (env : Env) (ctx : Nat → Bool) (name : String) :
    Nat → Nat → Registry → PollRes × Registry × List Inv
  | 0, _, reg => (.fuelOut, reg, [])
  | f + 1, i, reg =>
    if ctx i then (.canceled, reg, [])
    else
      let g := Get env reg name
      if isNotExistE g.1 then
        let r := newPoll env ctx name f (i + 1) g.2.1
        (r.1, r.2.1, g.2.2 ++ r.2.2)
      else (.done g.1, g.2.1, g.2.2)

/-- `New` from src/screen.go: existence precheck via `Get` (any non-NotFound
outcome, including success and `Get`'s own validation error, is mapped to the
"screen already exists" error), then the detached create command, then the
poll loop.  `none` in the first component means the poll ran out of fuel. -/
def New (env : Env) (ctx : Nat → Bool) (fuel : Nat) (reg : Registry)
    (name shell : String) : Option (Except GoErr Session) × Registry × List Inv :=
  let g := Get env reg name
  if isNotExistE g.1 = false then
    (some (.error (.syscallExist "screen already exists")), g.2.1, g.2.2)
  else
    let c := env.createRes name shell
    let invs2 := g.2.2 ++ [Inv.createCmd name shell]
    if c.exitOk = false then (some (.error (.cmdOutput c.combined)), g.2.1, invs2)
    else
      match newPoll env ctx name fuel 0 g.2.1 with
      | (.canceled, reg2, invs3) => (some (.error .ctxCanceled), reg2, invs2 ++ invs3)
      | (.done g2, reg2, invs3) => (some g2, reg2, invs2 ++ invs3)
      | (.fuelOut, reg2, invs3) => (none, reg2, invs2 ++ invs3)

/-- One discovery call in a trace: a scoped `Get` or an unscoped `GetAll`,
each observing the external world of its moment. -/
inductive DiscOp where
  | get (env : Env) (name : String)
  | getAll (env : Env)

/-- Run a sequence of discovery calls against the shared registry, collecting
every `Session` value handed to callers. -/
def runDisc : List DiscOp → Registry → List Session × Registry
  | [], reg => ([], reg)
  | .get env name :: rest, reg =>
    let r := Get env reg name
    let ss := match r.1 with | .ok s => [s] | .error _ => []
    let r2 := runDisc rest r.2.1
    (ss ++ r2.1, r2.2)
  | .getAll env :: rest, reg =>
    let r := GetAll env reg
    let r2 := runDisc rest r.2.1
    (r.1.getD [] ++ r2.1, r2.2)

/-- Number of control-command invocations in a trace. -/
def ctlCount (invs : List Inv) : Nat :=
  (invs.filter fun i => match i with | .ctlCmd _ _ => true | _ => false).length

/-- Modelled from the spec: the header line of the external tool's listing
output (the listing format belongs to the external collaborator; the spec
fixes only that active-session lines carry whitespace-bounded
`<pid>.<name>` tokens between a header and a footer line). -/
def headerChars : List Char :=
  "There".data ++ ' ' :: ("is".data ++ ' ' :: ("a".data ++ ' ' ::
    ("screen".data ++ ' ' :: ("on:".data ++ '\n' :: []))))

/-- Modelled from the spec: one active-session line of the listing output,
`\t<pid>.<name>\t(Detached)\n`. -/
def lineChars (p : Nat) (nm : List Char) : List Char :=
  '\t' :: (natChars p ++ '.' :: (nm ++ '\t' :: ("(Detached)".data ++ '\n' :: [])))

/-- Modelled from the spec: the footer line of the listing output. -/
def footerChars (cnt : Nat) : List Char :=
  natChars cnt ++ ' ' :: ("Socket".data ++ ' ' :: ("in".data ++ ' ' ::
    ("/run/screen/S-user.".data ++ '\n' :: [])))

/-- The session lines for a list of (pid, name) sessions. -/
def bodyChars : List (Nat × String) → List Char
  | [] => []
  | (p, nm) :: rest => lineChars p nm.data ++ bodyChars rest

/-- A full listing output for the given sessions. -/
def renderChars (ss : List (Nat × String)) : List Char :=
  headerChars ++ (bodyChars ss ++ footerChars ss.length)

/-- A full listing output, as a string. -/
def renderListing (ss : List (Nat × String)) : String := ⟨renderChars ss⟩

/-- A name is whitespace-free (session names never contain whitespace, or the
listing's whitespace-separated fields could not carry them). -/
abbrev wsFreeStr (s : String) : Prop := ∀ c ∈ s.data, isWsChar c = false

/-- A name is plain alphanumeric text; for such names the interpolation of the
name into `Get`'s regex pattern matches it literally. -/
abbrev plainStr (s : String) : Prop := ∀ c ∈ s.data, c.isAlphanum = true

/-- A successful command result used by the concrete test environments. -/
def okCmd : CmdOut := { exitOk := true, combined := "", stdout := "", errMsg := "" }

/-- A failing command result with combined output, stdout and exit error text
all distinct, used by the concrete test environments. -/
def failCmd : CmdOut :=
  { exitOk := false, combined := "boom\n", stdout := "", errMsg := "exit status 1" }

/-- A listing output reporting no live sessions. -/
def deadLs : String := "No Sockets found in /run/screen/S-user.\n"

/-- A listing output with one live session `123.banana`. -/
def liveLs : String :=
  "There is a screen on:\n\t123.banana\t(Detached)\n1 Socket in /run/screen/S-user.\n"

/-- Environment with no live sessions; every command succeeds and every path
exists. -/
def env0dead : Env :=
  { lsOut := fun _ => deadLs, lsAllOut := deadLs, ctl := fun _ _ => okCmd,
    createRes := fun _ _ => okCmd, stat := fun _ => .ok }

/-- Environment with one live session `banana`; every command succeeds and
every path exists. -/
def env0live : Env :=
  { lsOut := fun _ => liveLs, lsAllOut := liveLs, ctl := fun _ _ => okCmd,
    createRes := fun _ _ => okCmd, stat := fun _ => .ok }

/-- Environment with one live session `banana` whose control commands all fail
with `failCmd`. -/
def env0fail : Env :=
  { lsOut := fun _ => liveLs, lsAllOut := liveLs, ctl := fun _ _ => failCmd,
    createRes := fun _ _ => okCmd, stat := fun _ => .ok }

/-- Environment with one live session `banana` where every stat reports a
permission error. -/
def env0statother : Env :=
  { lsOut := fun _ => liveLs, lsAllOut := liveLs, ctl := fun _ _ => okCmd,
    createRes := fun _ _ => okCmd, stat := fun _ => .other "permission denied" }

/-- The empty registry. -/
def reg0 : Registry := { entries := [], next := 0 }

/-- The registry after `banana`'s lock has been installed into `reg0`. -/
def reg1 : Registry := { entries := [("banana", 0)], next := 1 }

/-- A session handle for `banana`, as obtained from an earlier discovery. -/
def sess0 : Session := { name := "banana", lock := 0, pid := some 123 }

/-- An unscoped listing with two session lines both named `banana` and no
trailing newline (so the framing skips exactly the header and footer lines). -/
def allLs : String :=
  "There are screens on:\n\t123.banana\t(Detached)\n\t456.banana\t(Detached)\n2 Sockets in /run/screen/S-user."

/-- Environment whose unscoped listing is `allLs`. -/
def envAll : Env := { env0live with lsAllOut := allLs }

/-- Number of create-command invocations in a trace. -/
def createCount (invs : List Inv) : Nat :=
  (invs.filter fun i => match i with | .createCmd _ _ => true | _ => false).length

/-- All characters of a char list are non-whitespace. -/
def nonwsL (l : List Char) : Prop := ∀ c ∈ l, isWsChar c = false

/-- No suffix of `s` begins a match of the pattern `\s(\d+)\.(nm)\s`. -/
def OkL (nm : List Char) : List Char → Prop
  | [] => True
  | c :: rest => matchHere nm (c :: rest) = none ∧ OkL nm rest

/-- The head of the list, if any, is not a digit (the stopping condition of a
greedy digit run). -/
def headNonDigit : List Char → Prop
  | [] => True
  | c :: _ => c.isDigit = false

/-- Environment whose scoped listing shows a single session `123.foobar`. -/
def envC2 : Env :=
  { lsOut := fun _ => renderListing [(123, "foobar")], lsAllOut := deadLs,
    ctl := fun _ _ => okCmd, createRes := fun _ _ => okCmd, stat := fun _ => .ok }

theorem get_cases (env : Env) (reg : Registry) (n : String) :
    (n = "" ∧ Get env reg n =
      (.error (.syscallInvalid "screen name cannot be empty"), reg, [])) ∨
    (n ≠ "" ∧ Get env reg n = (.error .errNotExist, reg, [Inv.listCmd n])) ∨
    (n ≠ "" ∧ ∃ ds rest, scanMatches n.data (env.lsOut n).data = ds :: rest ∧
      Get env reg n =
        (.ok { name := n, lock := (loadOrStore reg n).1, pid := parseNat ds },
          (loadOrStore reg n).2, [Inv.listCmd n])) := by
  unfold Get
  split
  · rename_i h
    exact Or.inl ⟨h, rfl⟩
  · rename_i h
    split
    · exact Or.inr (Or.inl ⟨h, rfl⟩)
    · rcases hm : scanMatches n.data (env.lsOut n).data with _ | ⟨ds, rest⟩
      · exact Or.inr (Or.inl ⟨h, rfl⟩)
      · exact Or.inr (Or.inr ⟨h, ds, rest, rfl, rfl⟩)

theorem ctlCount_get (env : Env) (reg : Registry) (n : String) :
    ctlCount (Get env reg n).2.2 = 0 := by
  rcases get_cases env reg n with ⟨_, h⟩ | ⟨_, h⟩ | ⟨_, _, _, _, h⟩ <;> rw [h] <;> rfl

theorem createCount_get (env : Env) (reg : Registry) (n : String) :
    createCount (Get env reg n).2.2 = 0 := by
  rcases get_cases env reg n with ⟨_, h⟩ | ⟨_, h⟩ | ⟨_, _, _, _, h⟩ <;> rw [h] <;> rfl

theorem get_err_reg (env : Env) (reg : Registry) (n : String) (e : GoErr)
    (h : (Get env reg n).1 = .error e) : (Get env reg n).2.1 = reg := by
  rcases get_cases env reg n with ⟨_, hg⟩ | ⟨_, hg⟩ | ⟨_, _, _, _, hg⟩
  · rw [hg]
  · rw [hg]
  · rw [hg] at h
    exact absurd h (by simp)

theorem get_notexist_invs (env : Env) (reg : Registry) (n : String)
    (h : (Get env reg n).1 = .error .errNotExist) :
    (Get env reg n).2.2 = [Inv.listCmd n] := by
  rcases get_cases env reg n with ⟨_, hg⟩ | ⟨_, hg⟩ | ⟨_, _, _, _, hg⟩
  · rw [hg] at h
    exact absurd h (by simp)
  · rw [hg]
  · rw [hg] at h
    exact absurd h (by simp)

/-- C9: `Get ""` always fails with the empty-name validation error (a
`SyscallError` around `os.ErrInvalid`, distinct from `os.ErrNotExist`), and
issues no external invocation. -/
theorem c9_empty_name_validation (env : Env) (reg : Registry) :
    Get env reg "" = (.error (.syscallInvalid "screen name cannot be empty"), reg, []) ∧
    GoErr.syscallInvalid "screen name cannot be empty" ≠ GoErr.errNotExist := by
  exact ⟨rfl, by decide⟩

/-- C10: `New` with the empty name returns the "screen already exists" error
(the existence precheck maps every non-NotFound outcome of `Get`, including
the empty-name validation error, to AlreadyExists), not the empty-name
validation error, and the trace is empty: in particular the external create
command is never invoked. -/
theorem c10_new_empty_name (env : Env) (ctx : Nat → Bool) (fuel : Nat)
    (reg : Registry) (shell : String) :
    New env ctx fuel reg "" shell =
      (some (.error (.syscallExist "screen already exists")), reg, []) ∧
    GoErr.syscallExist "screen already exists" ≠
      GoErr.syscallInvalid "screen name cannot be empty" := by
  exact ⟨rfl, by decide⟩

/-- C4: when a live session named `name` exists (discovery succeeds), `New`
fails with the AlreadyExists error and its trace contains no create command
(it is exactly the precheck's listing invocation). -/
theorem c4_already_exists (env : Env) (ctx : Nat → Bool) (fuel : Nat)
    (reg : Registry) (name shell : String)
    (hlive : exOk (Get env reg name).1 = true) :
    (New env ctx fuel reg name shell).1 =
      some (.error (.syscallExist "screen already exists")) ∧
    createCount (New env ctx fuel reg name shell).2.2 = 0 := by
  have hne : isNotExistE (Get env reg name).1 = false := by
    cases h : (Get env reg name).1 with
    | ok s => rfl
    | error e => rw [h] at hlive; exact absurd hlive (by simp [exOk])
  have hnew : New env ctx fuel reg name shell =
      (some (.error (.syscallExist "screen already exists")),
        (Get env reg name).2.1, (Get env reg name).2.2) := by
    unfold New
    simp [hne]
  rw [hnew]
  exact ⟨rfl, createCount_get env reg name⟩

/-- Witness for C4 at a concrete input: session `banana` is live in
`env0live`, and `New` returns AlreadyExists without invoking the create
command. -/
theorem c4_witness :
    (New env0live (fun _ => false) 5 reg0 "banana" "sh").1 =
      some (.error (.syscallExist "screen already exists")) ∧
    createCount (New env0live (fun _ => false) 5 reg0 "banana" "sh").2.2 = 0 :=
  c4_already_exists env0live (fun _ => false) 5 reg0 "banana" "sh" (by decide)

/-- C3 counterexample: in an environment where session `banana` is not found
by discovery, `Chdir` does not fail with NotFound — it succeeds and invokes
the external `chdir` control command, because `Chdir` (unlike the other
mutating operations) performs no liveness re-check. -/
theorem c3_counterexample :
    exOk (Get env0dead reg0 sess0.name).1 = false ∧
    Chdir env0dead reg0 sess0 "/tmp" =
      (none, reg0, [Inv.ctlCmd "banana" ["chdir", "/tmp"]]) := by
  exact ⟨by decide, rfl⟩

theorem builtinTemplate_dead (env : Env) (reg : Registry) (s : Session) (cmd : String)
    (hdead : exOk (Get env reg s.name).1 = false) :
    builtinTemplate env reg s cmd =
      (some (.syscallNotExist "screen not found"),
        (Get env reg s.name).2.1, (Get env reg s.name).2.2) := by
  unfold builtinTemplate isOnline
  simp [hdead]

theorem builtinTemplateArgs_dead (env : Env) (reg : Registry) (s : Session)
    (cmd : String) (args : List String)
    (hdead : exOk (Get env reg s.name).1 = false) :
    builtinTemplateArgs env reg s cmd args =
      (some (.syscallNotExist "screen not found"),
        (Get env reg s.name).2.1, (Get env reg s.name).2.2) := by
  unfold builtinTemplateArgs isOnline
  simp [hdead]

theorem exec_dead (env : Env) (reg : Registry) (s : Session)
    (fdpat command : String) (args : List String)
    (hdead : exOk (Get env reg s.name).1 = false) :
    Exec env reg s fdpat command args =
      (some (.syscallNotExist "screen not found"),
        (Get env reg s.name).2.1, (Get env reg s.name).2.2) := by
  unfold Exec isOnline
  simp [hdead]

theorem hardcopy_dead (env : Env) (reg : Registry) (s : Session)
    (path : String) (app : Bool)
    (hdead : exOk (Get env reg s.name).1 = false) :
    Hardcopy env reg s path app =
      (some (.syscallNotExist "screen not found"),
        (Get env reg s.name).2.1, (Get env reg s.name).2.2) := by
  unfold Hardcopy isOnline
  simp [hdead]

theorem log_dead (env : Env) (reg : Registry) (s : Session)
    (path : String) (app : Bool) (fi : Nat)
    (hdead : exOk (Get env reg s.name).1 = false) :
    Log env reg s path app fi =
      (some (.syscallNotExist "screen not found"),
        (Get env reg s.name).2.1, (Get env reg s.name).2.2) := by
  unfold Log isOnline
  simp [hdead]

/-- C3 amended: every mutating operation except `Chdir` — the template
dispatchers (quit/kill/clear via `builtinTemplate`, stuff via
`builtinTemplateArgs`) and `Exec`, `Hardcopy`, `Log` — re-verifies liveness
after acquiring the lock and, when the session is no longer found, fails with
the NotFound error without issuing any external control command. -/
theorem c3_amended (env : Env) (reg : Registry) (s : Session)
    (cmd fdpat command path lpath : String) (args : List String)
    (app lapp : Bool) (fi : Nat)
    (hdead : exOk (Get env reg s.name).1 = false) :
    ((builtinTemplate env reg s cmd).1 = some (.syscallNotExist "screen not found") ∧
      ctlCount (builtinTemplate env reg s cmd).2.2 = 0) ∧
    ((builtinTemplateArgs env reg s cmd args).1 =
        some (.syscallNotExist "screen not found") ∧
      ctlCount (builtinTemplateArgs env reg s cmd args).2.2 = 0) ∧
    ((Exec env reg s fdpat command args).1 = some (.syscallNotExist "screen not found") ∧
      ctlCount (Exec env reg s fdpat command args).2.2 = 0) ∧
    ((Hardcopy env reg s path app).1 = some (.syscallNotExist "screen not found") ∧
      ctlCount (Hardcopy env reg s path app).2.2 = 0) ∧
    ((Log env reg s lpath lapp fi).1 = some (.syscallNotExist "screen not found") ∧
      ctlCount (Log env reg s lpath lapp fi).2.2 = 0) := by
  rw [builtinTemplate_dead env reg s cmd hdead,
    builtinTemplateArgs_dead env reg s cmd args hdead,
    exec_dead env reg s fdpat command args hdead,
    hardcopy_dead env reg s path app hdead,
    log_dead env reg s lpath lapp fi hdead]
  refine ⟨⟨rfl, ?_⟩, ⟨rfl, ?_⟩, ⟨rfl, ?_⟩, ⟨rfl, ?_⟩, ⟨rfl, ?_⟩⟩ <;>
    exact ctlCount_get env reg s.name

/-- Witness for C3's amended claim at a concrete input: with session `banana`
absent, `Stuff` (via `builtinTemplateArgs`) fails with NotFound and issues no
control command. -/
theorem c3_amended_witness :
    (builtinTemplateArgs env0dead reg0 sess0 "stuff" ["echo", "hi"]).1 =
      some (.syscallNotExist "screen not found") ∧
    ctlCount (builtinTemplateArgs env0dead reg0 sess0 "stuff" ["echo", "hi"]).2.2 = 0 :=
  (c3_amended env0dead reg0 sess0 "stuff" "" "ls" "/tmp" "/log" ["echo", "hi"]
    false false 1 (by decide)).2.1

/-- C7 counterexample: `Exec` with the non-matching fdpat `"bad"` on a live
session does fail with the validation error, but only after issuing the
liveness listing invocation — the trace is not empty, contradicting "zero
external commands (including the listing used for the liveness check)". -/
theorem c7_counterexample :
    Exec env0live reg0 sess0 "bad" "ls" [] =
      (some (.syscallInvalid "invalid fdpat"), reg1, [Inv.listCmd "banana"]) ∧
    ([Inv.listCmd "banana"] : List Inv) ≠ [] := by
  exact ⟨by decide, by decide⟩

/-- C7 amended: on a live session, `Exec` with a non-empty fdpat that does not
match `/[.!:]{0,3}\|?$` fails with the validation error and issues no control
command; its trace is exactly the one liveness listing invocation (the
validation happens after the liveness check, not before any external
invocation). -/
theorem c7_amended (env : Env) (reg : Registry) (s : Session)
    (fdpat command : String) (args : List String)
    (hlive : exOk (Get env reg s.name).1 = true)
    (hne : fdpat ≠ "") (hbad : fdpatMatch fdpat.data = false) :
    Exec env reg s fdpat command args =
      (some (.syscallInvalid "invalid fdpat"),
        (Get env reg s.name).2.1, (Get env reg s.name).2.2) ∧
    ctlCount (Exec env reg s fdpat command args).2.2 = 0 := by
  have hex : Exec env reg s fdpat command args =
      (some (.syscallInvalid "invalid fdpat"),
        (Get env reg s.name).2.1, (Get env reg s.name).2.2) := by
    unfold Exec isOnline
    simp [hlive, hne, hbad]
  refine ⟨hex, ?_⟩
  rw [hex]
  exact ctlCount_get env reg s.name

/-- Witness for C7's amended claim at a concrete input. -/
theorem c7_amended_witness :
    Exec env0live reg0 sess0 "xyz" "ls" ["-l"] =
      (some (.syscallInvalid "invalid fdpat"),
        (Get env0live reg0 "banana").2.1, (Get env0live reg0 "banana").2.2) ∧
    ctlCount (Exec env0live reg0 sess0 "xyz" "ls" ["-l"]).2.2 = 0 :=
  c7_amended env0live reg0 sess0 "xyz" "ls" ["-l"] (by decide) (by decide) (by decide)

/-- C8 counterexample: `Stuff` (via `builtinTemplateArgs`) on a failing
control command produces the error message `stdout ++ errText`
("exit status 1" here), not the tool's combined output ("boom\n") verbatim. -/
theorem c8_counterexample :
    (Stuff env0fail reg0 sess0 ["echo", "hi"]).1 = some (.cmdOutput "exit status 1") ∧
    (env0fail.ctl "banana" ["stuff", "echo hi"]).combined = "boom\n" ∧
    ("exit status 1" : String) ≠ "boom\n" := by
  exact ⟨by decide, rfl, by decide⟩

/-- C8 amended: on non-zero exit, operations dispatched through
`builtinTemplate` (quit, kill, clear) fail with the tool's combined output
verbatim, but `builtinTemplateArgs` (the dispatcher `Stuff` uses) captures
stdout only and appends the Go exit-error text to it. -/
theorem c8_amended (env : Env) (reg : Registry) (s : Session) (cmd : String)
    (args : List String)
    (hlive : exOk (Get env reg s.name).1 = true)
    (h1 : (env.ctl s.name [cmd]).exitOk = false)
    (h2 : (env.ctl s.name [cmd, String.intercalate " " args]).exitOk = false) :
    (builtinTemplate env reg s cmd).1 =
      some (.cmdOutput (env.ctl s.name [cmd]).combined) ∧
    (builtinTemplateArgs env reg s cmd args).1 =
      some (.cmdOutput ((env.ctl s.name [cmd, String.intercalate " " args]).stdout ++
        (env.ctl s.name [cmd, String.intercalate " " args]).errMsg)) := by
  constructor
  · unfold builtinTemplate isOnline
    simp [hlive, h1]
  · unfold builtinTemplateArgs isOnline
    simp [hlive, h2]

/-- Witness for C8's amended claim at a concrete input. -/
theorem c8_amended_witness :
    (builtinTemplate env0fail reg0 sess0 "quit").1 =
      some (.cmdOutput (env0fail.ctl "banana" ["quit"]).combined) ∧
    (builtinTemplateArgs env0fail reg0 sess0 "stuff" ["ls"]).1 =
      some (.cmdOutput ((env0fail.ctl "banana" ["stuff", "ls"]).stdout ++
        (env0fail.ctl "banana" ["stuff", "ls"]).errMsg)) := by
  have h := c8_amended env0fail reg0 sess0 "stuff" ["ls"] (by decide) (by decide)
    (by decide)
  exact ⟨c8_amended env0fail reg0 sess0 "quit" ["ls"] (by decide) (by decide)
    (by decide) |>.1, h.2⟩

/-- C6 counterexample: with `append = true` and the stat of the path failing
with an unrelated (non-missing) error, `Log` does not propagate that error —
it swallows it and succeeds. -/
theorem c6_counterexample :
    env0statother.stat "/log" = .other "permission denied" ∧
    (Log env0statother reg0 sess0 "/log" true 10).1 = none := by
  exact ⟨rfl, by decide⟩

/-- C6 amended: in `Log`, a stat failure caused by the file not existing never
fails the operation — it proceeds to point the log file at the path and turn
logging on; an unrelated stat error propagates only when `append` is false
(with no control command issued); with `append` requested, every stat error is
swallowed. -/
theorem c6_amended :
    (∀ env reg (s : Session) path fi app,
      exOk (Get env reg s.name).1 = true →
      env.stat path = .enoent →
      path ≠ "" →
      (env.ctl s.name ["logfile", path]).exitOk = true →
      (env.ctl s.name ["logfile", "flush", natToStr fi]).exitOk = true →
      (env.ctl s.name ["log", "on"]).exitOk = true →
      Log env reg s path app fi =
        (none, (Get env reg s.name).2.1,
          (Get env reg s.name).2.2 ++
            [Inv.ctlCmd s.name ["logfile", path],
             Inv.ctlCmd s.name ["logfile", "flush", natToStr fi],
             Inv.ctlCmd s.name ["log", "on"]])) ∧
    (∀ env reg (s : Session) path fi m,
      exOk (Get env reg s.name).1 = true →
      env.stat path = .other m →
      (Log env reg s path false fi).1 = some (.statOther m) ∧
      ctlCount (Log env reg s path false fi).2.2 = 0) := by
  constructor
  · intro env reg s path fi app hlive hst hpath hc1 hc2 hc3
    unfold Log isOnline
    rw [hst]
    cases app <;> simp [hlive, hc1, hc2, hc3, hpath]
  · intro env reg s path fi m hlive hst
    have hl : Log env reg s path false fi =
        (some (.statOther m), (Get env reg s.name).2.1, (Get env reg s.name).2.2) := by
      unfold Log isOnline
      rw [hst]
      simp [hlive]
    rw [hl]
    exact ⟨rfl, ctlCount_get env reg s.name⟩

/-- Witness for C6's amended claim at concrete inputs: a missing log file with
`append = true` succeeds with logging enabled, and a permission error with
`append = false` propagates with no control command issued. -/
theorem c6_amended_witness :
    Log { env0live with stat := fun _ => .enoent } reg0 sess0 "/log" true 1 =
      (none, (Get { env0live with stat := fun _ => .enoent } reg0 "banana").2.1,
        (Get { env0live with stat := fun _ => .enoent } reg0 "banana").2.2 ++
          [Inv.ctlCmd "banana" ["logfile", "/log"],
           Inv.ctlCmd "banana" ["logfile", "flush", natToStr 1],
           Inv.ctlCmd "banana" ["log", "on"]]) ∧
    ((Log env0statother reg0 sess0 "/log" false 1).1 =
        some (.statOther "permission denied") ∧
      ctlCount (Log env0statother reg0 sess0 "/log" false 1).2.2 = 0) := by
  constructor
  · exact c6_amended.1 { env0live with stat := fun _ => .enoent } reg0 sess0 "/log" 1
      true (by decide) rfl (by decide) (by decide) (by decide) (by decide)
  · exact c6_amended.2 env0statother reg0 sess0 "/log" 1 "permission denied"
      (by decide) rfl

theorem newPoll_canceled (env : Env) (ctx : Nat → Bool) (name : String)
    (reg : Registry) (k : Nat) :
    ∀ fuel i, (Get env reg name).1 = .error .errNotExist →
    (∀ j, j < k → ctx (i + j) = false) → ctx (i + k) = true → k < fuel →
    newPoll env ctx name fuel i reg =
      (.canceled, reg, List.replicate k (Inv.listCmd name)) := by
  induction k with
  | zero =>
    intro fuel i hget hbefore hk hfuel
    obtain ⟨f, rfl⟩ : ∃ f, fuel = f + 1 := ⟨fuel - 1, by omega⟩
    rw [Nat.add_zero] at hk
    unfold newPoll
    rw [hk]
    rfl
  | succ k ih =>
    intro fuel i hget hbefore hk hfuel
    obtain ⟨f, rfl⟩ : ∃ f, fuel = f + 1 := ⟨fuel - 1, by omega⟩
    have h0 : ctx i = false := by
      have := hbefore 0 (Nat.succ_pos k)
      rwa [Nat.add_zero] at this
    have hnx : isNotExistE (Get env reg name).1 = true := by
      rw [hget]
      rfl
    have hreg : (Get env reg name).2.1 = reg := get_err_reg env reg name _ hget
    have hinvs : (Get env reg name).2.2 = [Inv.listCmd name] :=
      get_notexist_invs env reg name hget
    have hrec : newPoll env ctx name f (i + 1) reg =
        (.canceled, reg, List.replicate k (Inv.listCmd name)) := by
      apply ih f (i + 1) hget
      · intro j hj
        have := hbefore (j + 1) (by omega)
        rwa [show i + (j + 1) = i + 1 + j by omega] at this
      · rwa [show i + 1 + k = i + (k + 1) by omega]
      · omega
    unfold newPoll
    simp [h0, hnx, hreg, hinvs, hrec, List.replicate_succ]

/-- C5: the creation poll loop re-checks the cancellation signal at the top of
every iteration — if the signal stays quiet for `k` iterations and then fires,
the loop returns the cancellation error after exactly `k` listing polls — and
`New` with an already-cancelled context returns the cancellation error
immediately after the precheck and create invocations, without a single poll
of the listing. -/
theorem c5_cancellation :
    (∀ env ctx name reg k fuel i,
      (Get env reg name).1 = .error .errNotExist →
      (∀ j, j < k → ctx (i + j) = false) → ctx (i + k) = true → k < fuel →
      newPoll env ctx name fuel i reg =
        (.canceled, reg, List.replicate k (Inv.listCmd name))) ∧
    (∀ env ctx fuel reg name shell,
      (Get env reg name).1 = .error .errNotExist →
      (env.createRes name shell).exitOk = true → ctx 0 = true → 0 < fuel →
      New env ctx fuel reg name shell =
        (some (.error .ctxCanceled), reg,
          [Inv.listCmd name, Inv.createCmd name shell])) := by
  constructor
  · intro env ctx name reg k fuel i hget hbefore hk hfuel
    exact newPoll_canceled env ctx name reg k fuel i hget hbefore hk hfuel
  · intro env ctx fuel reg name shell hget hcreate hctx hfuel
    have hnx : isNotExistE (Get env reg name).1 = true := by
      rw [hget]
      rfl
    have hreg : (Get env reg name).2.1 = reg := get_err_reg env reg name _ hget
    have hinvs : (Get env reg name).2.2 = [Inv.listCmd name] :=
      get_notexist_invs env reg name hget
    have hpoll : newPoll env ctx name fuel 0 reg =
        (.canceled, reg, List.replicate 0 (Inv.listCmd name)) := by
      apply newPoll_canceled env ctx name reg 0 fuel 0 hget
      · intro j hj
        omega
      · rwa [Nat.add_zero]
      · omega
    unfold New
    simp [hnx, hreg, hinvs, hcreate, hpoll]

/-- Witness for C5 at concrete inputs: a context that fires at the second
iteration cancels the poll after one listing invocation, and `New` under an
already-cancelled context returns the cancellation error right after the
create command. -/
theorem c5_witness :
    newPoll env0dead (fun j => decide (1 ≤ j)) "x" 3 0 reg0 =
      (.canceled, reg0, List.replicate 1 (Inv.listCmd "x")) ∧
    New env0dead (fun _ => true) 4 reg0 "x" "sh" =
      (some (.error .ctxCanceled), reg0, [Inv.listCmd "x", Inv.createCmd "x" "sh"]) := by
  constructor
  · apply c5_cancellation.1 env0dead (fun j => decide (1 ≤ j)) "x" reg0 1 3 0 (by decide)
    · intro j hj
      have hj0 : j = 0 := Nat.lt_one_iff.mp hj
      subst hj0
      decide
    · decide
    · decide
  · exact c5_cancellation.2 env0dead (fun _ => true) 4 reg0 "x" "sh" (by decide)
      (by decide) (by decide) (by decide)

theorem findLock_loadOrStore_self (reg : Registry) (n : String) :
    findLock (loadOrStore reg n).2.entries n = some (loadOrStore reg n).1 := by
  unfold loadOrStore
  cases h : findLock reg.entries n with
  | some l => exact h
  | none => simp [findLock]

theorem findLock_loadOrStore_mono (reg : Registry) (n m : String) (l : Nat)
    (h : findLock reg.entries m = some l) :
    findLock (loadOrStore reg n).2.entries m = some l := by
  unfold loadOrStore
  cases hn : findLock reg.entries n with
  | some _ => exact h
  | none =>
    have hne : n ≠ m := by
      intro he
      rw [he, h] at hn
      exact Option.noConfusion hn
    simp [findLock, hne, h]

theorem get_lock_mono (env : Env) (reg : Registry) (n m : String) (l : Nat)
    (h : findLock reg.entries m = some l) :
    findLock (Get env reg n).2.1.entries m = some l := by
  rcases get_cases env reg n with ⟨_, hg⟩ | ⟨_, hg⟩ | ⟨_, _, _, _, hg⟩ <;> rw [hg]
  · exact h
  · exact h
  · exact findLock_loadOrStore_mono reg n m l h

theorem get_lock_produced (env : Env) (reg : Registry) (n : String) (s : Session)
    (h : (Get env reg n).1 = .ok s) :
    findLock (Get env reg n).2.1.entries s.name = some s.lock := by
  rcases get_cases env reg n with ⟨_, hg⟩ | ⟨_, hg⟩ | ⟨_, ds, rest, _, hg⟩
  · rw [hg] at h
    exact absurd h (by simp)
  · rw [hg] at h
    exact absurd h (by simp)
  · rw [hg] at h ⊢
    have hs : s = { name := n, lock := (loadOrStore reg n).1, pid := parseNat ds } :=
      (Except.ok.inj h).symm
    rw [hs]
    exact findLock_loadOrStore_self reg n

theorem getAllLoop_lock_mono (lines : List (List Char)) :
    ∀ (reg : Registry) (m : String) (l : Nat), findLock reg.entries m = some l →
    findLock (getAllLoop lines reg).2.entries m = some l := by
  induction lines with
  | nil => exact fun reg m l h => h
  | cons line rest ih =>
    intro reg m l h
    unfold getAllLoop
    cases hp : parseAllLine line with
    | none => exact h
    | some pnm =>
      exact ih (loadOrStore reg ⟨pnm.2⟩).2 m l
        (findLock_loadOrStore_mono reg ⟨pnm.2⟩ m l h)

theorem getAllLoop_lock_produced (lines : List (List Char)) :
    ∀ (reg : Registry) (s : Session), s ∈ (getAllLoop lines reg).1.getD [] →
    findLock (getAllLoop lines reg).2.entries s.name = some s.lock := by
  induction lines with
  | nil =>
    intro reg s h
    simp [getAllLoop] at h
  | cons line rest ih =>
    intro reg s h
    unfold getAllLoop at h ⊢
    cases hp : parseAllLine line with
    | none =>
      rw [hp] at h
      simp at h
    | some pnm =>
      obtain ⟨p, nm⟩ := pnm
      rw [hp] at h
      dsimp only at h ⊢
      rcases hr : (getAllLoop rest (loadOrStore reg ⟨nm⟩).2).1 with _ | ⟨ss⟩
      · rw [hr] at h
        simp at h
      · rw [hr] at h
        simp only [Option.map_some', Option.getD_some, List.mem_cons] at h
        rcases h with h | h
        · rw [h]
          exact getAllLoop_lock_mono rest (loadOrStore reg ⟨nm⟩).2 _ _
            (findLock_loadOrStore_self reg ⟨nm⟩)
        · have := ih (loadOrStore reg ⟨nm⟩).2 s (by rw [hr]; simpa using h)
          exact this

theorem getAll_lock_mono (env : Env) (reg : Registry) (m : String) (l : Nat)
    (h : findLock reg.entries m = some l) :
    findLock (GetAll env reg).2.1.entries m = some l := by
  unfold GetAll
  split
  · exact h
  · exact getAllLoop_lock_mono _ reg m l h

theorem getAll_lock_produced (env : Env) (reg : Registry) (s : Session)
    (h : s ∈ (GetAll env reg).1.getD []) :
    findLock (GetAll env reg).2.1.entries s.name = some s.lock := by
  unfold GetAll at h ⊢
  by_cases hc : containsSubstr env.lsAllOut sentinelStr = true
  · rw [if_pos hc] at h
    simp at h
  · rw [if_neg hc] at h ⊢
    exact getAllLoop_lock_produced _ reg s h

theorem runDisc_lock_mono (ops : List DiscOp) :
    ∀ (reg : Registry) (m : String) (l : Nat), findLock reg.entries m = some l →
    findLock (runDisc ops reg).2.entries m = some l := by
  induction ops with
  | nil => exact fun reg m l h => h
  | cons op rest ih =>
    intro reg m l h
    cases op with
    | get env name => exact ih _ m l (get_lock_mono env reg name m l h)
    | getAll env => exact ih _ m l (getAll_lock_mono env reg m l h)

theorem runDisc_lock_produced (ops : List DiscOp) :
    ∀ (reg : Registry) (s : Session), s ∈ (runDisc ops reg).1 →
    findLock (runDisc ops reg).2.entries s.name = some s.lock := by
  induction ops with
  | nil =>
    intro reg s h
    exact absurd h (by simp [runDisc])
  | cons op rest ih =>
    intro reg s h
    cases op with
    | get env name =>
      unfold runDisc at h ⊢
      rw [List.mem_append] at h
      rcases h with h | h
      · rcases hg : (Get env reg name).1 with e | s0
        · rw [hg] at h
          exact absurd h (by simp)
        · rw [hg] at h
          simp only [List.mem_singleton] at h
          rw [h]
          exact runDisc_lock_mono rest _ _ _ (get_lock_produced env reg name s0 hg)
      · exact ih _ s h
    | getAll env =>
      unfold runDisc at h ⊢
      rw [List.mem_append] at h
      rcases h with h | h
      · exact runDisc_lock_mono rest _ _ _ (getAll_lock_produced env reg s h)
      · exact ih _ s h

/-- C1: any two Session values produced by any sequence of discovery calls
(`Get` or `GetAll`, against arbitrary environments) that carry the same name
reference the identical shared lock — the registry installs locks via the
atomic get-or-create `loadOrStore`, so the lock of a name never changes once
installed. -/
theorem c1_shared_lock (ops : List DiscOp) (reg : Registry) (s1 s2 : Session)
    (h1 : s1 ∈ (runDisc ops reg).1) (h2 : s2 ∈ (runDisc ops reg).1)
    (hn : s1.name = s2.name) : s1.lock = s2.lock := by
  have p1 := runDisc_lock_produced ops reg s1 h1
  have p2 := runDisc_lock_produced ops reg s2 h2
  rw [hn] at p1
  rw [p1] at p2
  exact Option.some.inj p2

/-- Witness for C1 at a concrete input: one `Get` and one `GetAll` produce
three handles for `banana` (two with distinct pids), and the theorem yields
equality of the lock of the first and last. -/
theorem c1_shared_lock_witness :
    ({ name := "banana", lock := 0, pid := some 123 } : Session).lock =
      ({ name := "banana", lock := 0, pid := some 456 } : Session).lock :=
  c1_shared_lock [.get env0live "banana", .getAll envAll] reg0
    { name := "banana", lock := 0, pid := some 123 }
    { name := "banana", lock := 0, pid := some 456 }
    (by decide) (by decide) rfl

theorem ws_char_cases (c : Char) (h : isWsChar c = true) :
    c = ' ' ∨ c = '\t' ∨ c = '\n' ∨ c = '\r' ∨ c = '\x0c' := by
  unfold isWsChar at h
  simp only [Bool.or_eq_true, beq_iff_eq] at h
  tauto

theorem digit_nonws (c : Char) (h : c.isDigit = true) : isWsChar c = false := by
  cases hw : isWsChar c with
  | false => rfl
  | true =>
    rcases ws_char_cases c hw with h' | h' | h' | h' | h' <;> subst h' <;>
      exact absurd h (by decide)

theorem alphanum_nonws (c : Char) (h : c.isAlphanum = true) : isWsChar c = false := by
  cases hw : isWsChar c with
  | false => rfl
  | true =>
    rcases ws_char_cases c hw with h' | h' | h' | h' | h' <;> subst h' <;>
      exact absurd h (by decide)

theorem digitChar_digit (d : Nat) : (digitChar d).isDigit = true := by
  unfold digitChar
  split <;> decide

theorem natCharsAux_digits :
    ∀ (f p : Nat) (acc : List Char), (∀ c ∈ acc, c.isDigit = true) →
    ∀ c ∈ natCharsAux f p acc, c.isDigit = true := by
  intro f
  induction f with
  | zero => exact fun p acc hacc => hacc
  | succ f ih =>
    intro p acc hacc c hc
    unfold natCharsAux at hc
    by_cases hp : p < 10
    · rw [if_pos hp] at hc
      rcases List.mem_cons.mp hc with h | h
      · rw [h]
        exact digitChar_digit p
      · exact hacc c h
    · rw [if_neg hp] at hc
      refine ih (p / 10) (digitChar (p % 10) :: acc) ?_ c hc
      intro c' hc'
      rcases List.mem_cons.mp hc' with h | h
      · rw [h]
        exact digitChar_digit (p % 10)
      · exact hacc c' h

theorem natChars_digits (p : Nat) : ∀ c ∈ natChars p, c.isDigit = true :=
  natCharsAux_digits (p + 1) p [] (by intro c hc; exact absurd hc (List.not_mem_nil c))

theorem takeDigits_cons_nondigit (c : Char) (r : List Char) (h : c.isDigit = false) :
    takeDigits (c :: r) = ([], c :: r) := by
  unfold takeDigits
  rw [h]
  rfl

theorem takeDigits_append (a b : List Char) (ha : ∀ c ∈ a, c.isDigit = true)
    (hb : headNonDigit b) : takeDigits (a ++ b) = (a, b) := by
  induction a with
  | nil =>
    cases b with
    | nil => rfl
    | cons c r => exact takeDigits_cons_nondigit c r hb
  | cons d ds ih =>
    have hd : d.isDigit = true := ha d (List.mem_cons_self d ds)
    have ih' := ih fun c hc => ha c (List.mem_cons_of_mem d hc)
    rw [List.cons_append]
    unfold takeDigits
    rw [hd, ih']
    rfl

theorem matchTail_cons_nondigit (n : List Char) (c : Char) (r : List Char)
    (h : c.isDigit = false) : matchTail n (c :: r) = none := by
  unfold matchTail
  rw [takeDigits_cons_nondigit c r h]

theorem matchTail_nil (n : List Char) : matchTail n [] = none := rfl

theorem name_mismatch (n : List Char) :
    ∀ (m rest : List Char), n ≠ m →
    (∀ c ∈ n, isWsChar c = false) → (∀ c ∈ m, isWsChar c = false) →
    n.isPrefixOf (m ++ '\t' :: rest) = true →
    ∃ c r', (m ++ '\t' :: rest).drop n.length = c :: r' ∧ isWsChar c = false := by
  induction n with
  | nil =>
    intro m rest hne _ hm _
    cases m with
    | nil => exact absurd rfl hne
    | cons d m' =>
      exact ⟨d, m' ++ '\t' :: rest, rfl, hm d (List.mem_cons_self d m')⟩
  | cons a n' ih =>
    intro m rest hne hn hm hp
    cases m with
    | nil =>
      rw [List.nil_append] at hp
      unfold List.isPrefixOf at hp
      rw [Bool.and_eq_true, beq_iff_eq] at hp
      have := hn a (List.mem_cons_self a n')
      rw [hp.1] at this
      exact absurd this (by decide)
    | cons b m' =>
      rw [List.cons_append] at hp
      unfold List.isPrefixOf at hp
      rw [Bool.and_eq_true, beq_iff_eq] at hp
      obtain ⟨hab, hp'⟩ := hp
      subst hab
      have hne' : n' ≠ m' := by
        intro he
        exact hne (by rw [he])
      obtain ⟨c, r', hd, hc⟩ := ih m' rest hne'
        (fun c hc => hn c (List.mem_cons_of_mem a hc))
        (fun c hc => hm c (List.mem_cons_of_mem a hc)) hp'
      exact ⟨c, r', by simpa using hd, hc⟩

theorem matchTail_pidname (n : List Char) (p : Nat) (m rest : List Char)
    (hne : n ≠ m) (hn : ∀ c ∈ n, isWsChar c = false)
    (hm : ∀ c ∈ m, isWsChar c = false) :
    matchTail n (natChars p ++ '.' :: (m ++ '\t' :: rest)) = none := by
  unfold matchTail
  rw [takeDigits_append (natChars p) ('.' :: (m ++ '\t' :: rest))
    (natChars_digits p) (by exact (by decide : ('.').isDigit = false))]
  cases hnp : natChars p with
  | nil => rfl
  | cons d ds =>
    dsimp only
    rw [if_pos rfl]
    by_cases hp : n.isPrefixOf (m ++ '\t' :: rest) = true
    · obtain ⟨c, r', hd, hc⟩ := name_mismatch n m rest hne hn hm hp
      rw [hp, hd]
      simp [hc]
    · rw [Bool.not_eq_true] at hp
      rw [hp]
      rfl

theorem okl_nil (n : List Char) : OkL n [] := trivial

theorem okl_cons_nonws (n : List Char) (c : Char) (r : List Char)
    (h : isWsChar c = false) (hr : OkL n r) : OkL n (c :: r) := by
  refine ⟨?_, hr⟩
  show (if isWsChar c = true then matchTail n r else none) = none
  rw [h]
  rfl

theorem okl_cons_ws (n : List Char) (c : Char) (r : List Char)
    (h : isWsChar c = true) (hm : matchTail n r = none) (hr : OkL n r) :
    OkL n (c :: r) := by
  refine ⟨?_, hr⟩
  show (if isWsChar c = true then matchTail n r else none) = none
  rw [h, if_pos rfl]
  exact hm

theorem okl_append_nonws (n : List Char) (cs r : List Char)
    (h : ∀ c ∈ cs, isWsChar c = false) (hr : OkL n r) : OkL n (cs ++ r) := by
  induction cs with
  | nil => exact hr
  | cons c cs' ih =>
    rw [List.cons_append]
    refine okl_cons_nonws n c (cs' ++ r) (h c (List.mem_cons_self c cs')) ?_
    exact ih fun c' hc' => h c' (List.mem_cons_of_mem c hc')

theorem matchTail_footer (n : List Char) (cnt : Nat) :
    matchTail n (footerChars cnt) = none := by
  unfold footerChars matchTail
  rw [takeDigits_append (natChars cnt) _ (natChars_digits cnt)
    (by exact (by decide : (' ').isDigit = false))]
  cases hnp : natChars cnt with
  | nil => rfl
  | cons d ds =>
    dsimp only
    rw [if_neg (by decide : ¬(' ' = '.'))]

theorem okl_footer (n : List Char) (cnt : Nat) : OkL n (footerChars cnt) := by
  unfold footerChars
  refine okl_append_nonws n (natChars cnt) _
    (fun c hc => digit_nonws c (natChars_digits cnt c hc)) ?_
  refine okl_cons_ws n ' ' _ (by decide)
    (matchTail_cons_nondigit n 'S' _ (by decide)) ?_
  refine okl_append_nonws n "Socket".data _ (by decide) ?_
  refine okl_cons_ws n ' ' _ (by decide)
    (matchTail_cons_nondigit n 'i' _ (by decide)) ?_
  refine okl_append_nonws n "in".data _ (by decide) ?_
  refine okl_cons_ws n ' ' _ (by decide)
    (matchTail_cons_nondigit n '/' _ (by decide)) ?_
  refine okl_append_nonws n "/run/screen/S-user.".data _ (by decide) ?_
  exact okl_cons_ws n '\n' [] (by decide) (matchTail_nil n) (okl_nil n)

theorem matchTail_line_start (n : List Char) (p : Nat) (m r : List Char) :
    matchTail n (lineChars p m ++ r) = none := by
  unfold lineChars
  rw [List.cons_append]
  exact matchTail_cons_nondigit n '\t' _ (by decide)

theorem okl_line (n : List Char) (p : Nat) (m r : List Char)
    (hm : ∀ c ∈ m, isWsChar c = false) (hne : n ≠ m)
    (hn : ∀ c ∈ n, isWsChar c = false)
    (hr : OkL n r) (hmt : matchTail n r = none) :
    OkL n (lineChars p m ++ r) := by
  unfold lineChars
  simp only [List.cons_append, List.append_assoc, List.nil_append]
  refine okl_cons_ws n '\t' _ (by decide) ?_ ?_
  · exact matchTail_pidname n p m _ hne hn hm
  · refine okl_append_nonws n (natChars p) _
      (fun c hc => digit_nonws c (natChars_digits p c hc)) ?_
    refine okl_cons_nonws n '.' _ (by decide) ?_
    refine okl_append_nonws n m _ hm ?_
    refine okl_cons_ws n '\t' _ (by decide)
      (matchTail_cons_nondigit n '(' _ (by decide)) ?_
    refine okl_append_nonws n "(Detached)".data _ (by decide) ?_
    exact okl_cons_ws n '\n' r (by decide) hmt hr

theorem okl_body (n : List Char) (ss : List (Nat × String)) (cnt : Nat)
    (hn : ∀ c ∈ n, isWsChar c = false)
    (hss : ∀ (p : Nat) (nmS : String), (p, nmS) ∈ ss →
      (∀ c ∈ nmS.data, isWsChar c = false) ∧ nmS.data ≠ n) :
    OkL n (bodyChars ss ++ footerChars cnt) ∧
    matchTail n (bodyChars ss ++ footerChars cnt) = none := by
  induction ss with
  | nil =>
    rw [show bodyChars [] = [] from rfl, List.nil_append]
    exact ⟨okl_footer n cnt, matchTail_footer n cnt⟩
  | cons hd tl ih =>
    obtain ⟨p, nmS⟩ := hd
    have h1 := hss p nmS (List.mem_cons_self _ _)
    obtain ⟨ihok, ihmt⟩ := ih fun q mS hmem => hss q mS (List.mem_cons_of_mem _ hmem)
    rw [show bodyChars ((p, nmS) :: tl) = lineChars p nmS.data ++ bodyChars tl from rfl,
      List.append_assoc]
    constructor
    · exact okl_line n p nmS.data _ h1.1 (fun he => h1.2 he.symm) hn ihok ihmt
    · exact matchTail_line_start n p nmS.data _

theorem okl_render (n : List Char) (ss : List (Nat × String))
    (hn : ∀ c ∈ n, isWsChar c = false)
    (hss : ∀ (p : Nat) (nmS : String), (p, nmS) ∈ ss →
      (∀ c ∈ nmS.data, isWsChar c = false) ∧ nmS.data ≠ n) :
    OkL n (renderChars ss) := by
  obtain ⟨hok, hmt⟩ := okl_body n ss ss.length hn hss
  unfold renderChars headerChars
  simp only [List.cons_append, List.append_assoc, List.nil_append]
  refine okl_append_nonws n "There".data _ (by decide) ?_
  refine okl_cons_ws n ' ' _ (by decide)
    (matchTail_cons_nondigit n 'i' _ (by decide)) ?_
  refine okl_append_nonws n "is".data _ (by decide) ?_
  refine okl_cons_ws n ' ' _ (by decide)
    (matchTail_cons_nondigit n 'a' _ (by decide)) ?_
  refine okl_append_nonws n "a".data _ (by decide) ?_
  refine okl_cons_ws n ' ' _ (by decide)
    (matchTail_cons_nondigit n 's' _ (by decide)) ?_
  refine okl_append_nonws n "screen".data _ (by decide) ?_
  refine okl_cons_ws n ' ' _ (by decide)
    (matchTail_cons_nondigit n 'o' _ (by decide)) ?_
  refine okl_append_nonws n "on:".data _ (by decide) ?_
  exact okl_cons_ws n '\n' _ (by decide) hmt hok

theorem scanAux_eq_nil (n : List Char) :
    ∀ (s : List Char), OkL n s → ∀ f, scanAux n f s = [] := by
  intro s
  induction s with
  | nil =>
    intro _ f
    cases f <;> rfl
  | cons c rest ih =>
    intro h f
    cases f with
    | zero => rfl
    | succ f' =>
      unfold scanAux
      rw [h.1]
      exact ih h.2 f'

theorem scanMatches_render_nil (n : String) (ss : List (Nat × String))
    (hn : ∀ c ∈ n.data, isWsChar c = false)
    (hss : ∀ (p : Nat) (nmS : String), (p, nmS) ∈ ss →
      (∀ c ∈ nmS.data, isWsChar c = false) ∧ nmS.data ≠ n.data) :
    scanMatches n.data (renderListing ss).data = [] :=
  scanAux_eq_nil n.data (renderChars ss) (okl_render n.data ss hn hss) _

/-- C2: for a non-empty plain (alphanumeric, hence regex-literal) name `n`,
`Get n` applied to a listing rendered for sessions none of which is named
exactly `n` — in particular a listing carrying a session named `n ++ x` for a
non-empty suffix `x` — returns the NotFound error: the `<pid>.<name>` token is
matched anchored on whitespace boundaries, so a partial-name collision never
produces a Session. -/
theorem c2_no_partial_name_match (env : Env) (reg : Registry) (n : String)
    (ss : List (Nat × String))
    (hn : n ≠ "") (hplain : plainStr n)
    (hnames : ∀ (p : Nat) (nmS : String), (p, nmS) ∈ ss → wsFreeStr nmS ∧ nmS ≠ n)
    (hcollide : ∃ (p : Nat) (x : String), (p, n ++ x) ∈ ss ∧ x ≠ "")
    (henv : env.lsOut n = renderListing ss) :
    (Get env reg n).1 = .error .errNotExist := by
  have hnws : ∀ c ∈ n.data, isWsChar c = false :=
    fun c hc => alphanum_nonws c (hplain c hc)
  have hss : ∀ (p : Nat) (nmS : String), (p, nmS) ∈ ss →
      (∀ c ∈ nmS.data, isWsChar c = false) ∧ nmS.data ≠ n.data := by
    intro p nmS hmem
    obtain ⟨hw, hne⟩ := hnames p nmS hmem
    refine ⟨hw, ?_⟩
    intro he
    apply hne
    cases nmS
    cases n
    exact congrArg String.mk (by simpa using he)
  have hscan : scanMatches n.data (env.lsOut n).data = [] := by
    rw [henv]
    exact scanMatches_render_nil n ss hnws hss
  rcases get_cases env reg n with ⟨h, _⟩ | ⟨_, hg⟩ | ⟨_, ds, rest, hsc, _⟩
  · exact absurd h hn
  · rw [hg]
  · rw [hscan] at hsc
    exact absurd hsc (by simp)

/-- Witness for C2 at a concrete input: the listing shows only `123.foobar`,
and `Get "foo"` returns NotFound. -/
theorem c2_witness : (Get envC2 reg0 "foo").1 = .error .errNotExist :=
  c2_no_partial_name_match envC2 reg0 "foo" [(123, "foobar")]
    (by decide) (by decide)
    (by
      intro p nmS hmem
      rw [List.mem_singleton] at hmem
      injection hmem with h1 h2
      subst h2
      exact ⟨by decide, by decide⟩)
    ⟨123, "bar", by decide, by decide⟩ rfl

end GoScreen
